import Mathlib

/-!
Shallow embedding of the incoming-emails-processor lambda
(`src/index.js`).  The handler connects to an IMAP mailbox, locks the
INBOX, fetches messages, decodes each one twice (outer envelope, then
the embedded original carried as attachment 0), uploads the original
`.eml` and each of its attachments to S3, persists a metadata record
through a stored procedure, tracks processed UIDs in the `seen` array,
and finally flags / moves / deletes the UIDs in `seen`.

External collaborators (SSM parameter store, the IMAP client, S3, and
MySQL) are modelled as oracles inside `Env`: per-run flags say whether
the IMAP connect, the mailbox lock and the database connection succeed,
and per-message flags say whether decoding, each S3 put and the stored
procedure call succeed.  The handler's own control flow — every branch,
assignment and early exit of `exports.handler` — is translated
faithfully, and the observable effects are accumulated in `Trace`.
-/

/-- One attachment of the embedded original message
(`original.attachments[i]` in the source). -/
structure Attachment where
  filename : String
  contentType : String

/-- The decoded embedded original message (`original` in the source):
the fields of it that the handler reads. -/
structure Original where
  fromAddr : String
  toAddr : String
  subject : String
  messageId : String
  attachments : List Attachment

/-- One fetched mailbox message together with the oracle outcomes of the
external calls made while processing it: `decodeOk` covers both
`simpleParser` calls and the presence of the fields the handler
dereferences (`mail.attachments[0]`, `original.to.value[0].address`,
`original.messageId`); `emlPutOk` is the S3 put of the `.eml` blob;
`attPutOk i` is the S3 put of attachment `i`; `persistOk` is the
`sp_save_inbound_email` stored-procedure call. -/
structure FetchedMsg where
  uid : Nat
  decodeOk : Bool
  emlPutOk : Bool
  attPutOk : Nat → Bool
  persistOk : Bool
  original : Original

/-- The run environment: configuration plus the oracle outcomes of the
run-level external calls.  `ts p i` is the value of `Date.now()`
observed while naming attachment `i` of the message at position `p`. -/
structure Env where
  connectOk : Bool
  lockOk : Bool
  statusMessages : Nat
  dbConnectOk : Bool
  emailBucket : Option String
  year : Nat
  month : Nat
  messages : List FetchedMsg
  ts : Nat → Nat → Nat

/-- Suffix of `s` after its last dot: the substring matched by the
regular expression `[^.]+$` in `getFileExtension` (empty when `s` ends
in a dot, in which case the JS code would fault on `null[0]`). -/
def extAfterLastDot (s : String) : String :=
  ⟨(s.data.reverse.takeWhile (fun c => c ≠ '.')).reverse⟩

/-- `getFileExtension` from the source: the part after the last dot when
the filename contains a dot, `undefined` (modelled as `none`) otherwise. -/
def getFileExtension (filename : String) : Option String :=
  if filename.data.contains '.' then some (extAfterLastDot filename) else none

/-- Attachment blob filename, source line
`Date.now().toString() + i + '.' + getFileExtension(a.filename)`;
a `none` extension concatenates as the text `undefined` in JS. -/
def attFilename (now idx : Nat) (origName : String) : String :=
  Nat.repr now ++ Nat.repr idx ++ "." ++ ((getFileExtension origName).getD "undefined")

/-- Folder key, source line
`` `inbound/${year}/${month}/${original.to.value[0].address.split('@')[0]}` ``;
`split('@')[0]` is the part of the address before the first `@`. -/
def folderFor (year month : Nat) (addr : String) : String :=
  "inbound/" ++ Nat.repr year ++ "/" ++ Nat.repr month ++ "/" ++
    ⟨addr.data.takeWhile (fun c => c ≠ '@')⟩

/-- Name of the `.eml` blob, source line
`` `${original.messageId.split("@")[0].slice(1)}.eml` ``. -/
def emlNameOf (o : Original) : String :=
  ⟨(o.messageId.data.takeWhile (fun c => c ≠ '@')).drop 1⟩ ++ ".eml"

/-- S3 keys of the attachment uploads of one message, in order
(the fan-out at source lines 216-231). -/
def attKeys (now : Nat → Nat) (folder : String) : Nat → List Attachment → List String
  | _, [] => []
  | i, a :: rest =>
      (folder ++ "/" ++ attFilename (now i) i a.filename) :: attKeys now folder (i + 1) rest

/-- The handler's `result` variable: `{failed:true}` initially,
`{success:true}` on a completed run, the two `{success:false, error}`
shapes, or the raw stored-procedure result briefly assigned at source
line 237 (its serialization is never returned, see the terminal-result
theorems, so it carries no payload here). -/
inductive RunResult
  | failedInit
  | success
  | noMessages
  | dbError
  | spResult
  deriving DecidableEq

/-- `JSON.stringify` of the handler's `result` variable. -/
def jsonStringify : RunResult → String
  | RunResult.failedInit => "\x7b\"failed\":true\x7d"
  | RunResult.success => "\x7b\"success\":true\x7d"
  | RunResult.noMessages => "\x7b\"success\":false,\"error\":\"No messages in INBOX\"\x7d"
  | RunResult.dbError =>
      "\x7b\"success\":false,\"error\":\"Could not connect to MySQL database\"\x7d"
  | RunResult.spResult => "\x7b\x7d"

/-- An exception escaping part of the handler (JS `throw` / rejected
await that no `.then` handler catches). -/
inductive Fault
  | connectFailed
  | lockFailed
  | bucketMissing
  | decodeFailed (uid : Nat)
  | storageWrite (uid : Nat)
  deriving DecidableEq

/-- Observable effects of one run, accumulated in program order. -/
structure Trace where
  connected : Bool := false
  lockAcquired : Bool := false
  statusChecked : Bool := false
  dbConnectTried : Bool := false
  fetchStarted : Bool := false
  s3Puts : List (String × String) := []
  dbSaves : List Nat := []
  seen : List Nat := []
  flagged : Option (List Nat) := none
  moved : Option (List Nat) := none
  deleted : Option (List Nat) := none
  dbEnded : Bool := false
  lockReleased : Bool := false
  loggedOut : Bool := false
  deriving DecidableEq

/-- State threaded through the message loop: trace so far, the `result`
variable, and the pending exception if one was thrown. -/
structure MState where
  tr : Trace
  result : RunResult
  fault : Option Fault

/-- The HTTP-shaped object returned at source lines 279-285. -/
structure Resp where
  statusCode : Nat
  body : String
  deriving DecidableEq

/-- Result of one handler invocation: trace, final value of the `result`
variable, the returned payload (`none` when the handler threw), and the
escaped exception if any. -/
structure Outcome where
  tr : Trace
  result : RunResult
  response : Option Resp
  fault : Option Fault

/-- Body of the `for await` loop for one fetched message (source lines
161-241): decode outer and inner message, skip if the UID is already in
`seen`, upload the `.eml`, fan out the attachment uploads, call the
stored procedure (its rejection is caught and only logged), and push the
UID onto `seen` — unconditionally, whether or not the stored procedure
succeeded. -/
def procOne (env : Env) (bucket : String) (p : Nat) (m : FetchedMsg) (s : MState) : MState :=
  if !m.decodeOk then
    { s with fault := some (Fault.decodeFailed m.uid) }
  else if s.tr.seen.contains m.uid then s
  else
    let folder := folderFor env.year env.month m.original.toAddr
    let emlKey := folder ++ "/" ++ emlNameOf m.original
    let tr1 := { s.tr with s3Puts := s.tr.s3Puts ++ [(bucket, emlKey)] }
    if !m.emlPutOk then
      { s with tr := tr1, fault := some (Fault.storageWrite m.uid) }
    else
      let aKeys := attKeys (env.ts p) folder 0 m.original.attachments
      let tr2 := { tr1 with s3Puts := tr1.s3Puts ++ aKeys.map (fun k => (bucket, k)) }
      if !((List.range m.original.attachments.length).all m.attPutOk) then
        { s with tr := tr2, fault := some (Fault.storageWrite m.uid) }
      else
        let tr3 := { tr2 with dbSaves := tr2.dbSaves ++ [m.uid], seen := tr2.seen ++ [m.uid] }
        { tr := tr3,
          result := if m.persistOk then RunResult.spResult else s.result,
          fault := s.fault }

/-- The `for await (let message of client.fetch(..))` loop: messages are
processed in order, position `p` counting from 0; a thrown exception
aborts the remaining iteration. -/
def procMsgs (env : Env) (bucket : String) : Nat → List FetchedMsg → MState → MState
  | _, [], s => s
  | p, m :: rest, s =>
      let s2 := procOne env bucket p m s
      match s2.fault with
      | some _ => s2
      | none => procMsgs env bucket (p + 1) rest s2

/-- Everything inside the handler's `try` block (source lines 131-267):
status check, database connect attempt, the `EMAIL_BUCKET` presence
check, the message loop, the flag/move/delete finalization of `seen`,
and the three `result` assignments. -/
def tryBody (env : Env) : MState :=
  let tr0 : Trace := { connected := true, lockAcquired := true, statusChecked := true }
  if 0 < env.statusMessages then
    let tr1 := { tr0 with dbConnectTried := true }
    if env.dbConnectOk then
      match env.emailBucket with
      | none => { tr := tr1, result := RunResult.failedInit, fault := some Fault.bucketMissing }
      | some bucket =>
          let tr2 := { tr1 with fetchStarted := true }
          let s := procMsgs env bucket 0 env.messages
            { tr := tr2, result := RunResult.failedInit, fault := none }
          match s.fault with
          | some f => { s with fault := some f }
          | none =>
              let trF :=
                if s.tr.seen.isEmpty then s.tr
                else { s.tr with flagged := some s.tr.seen, moved := some s.tr.seen,
                                 deleted := some s.tr.seen }
              { tr := { trF with dbEnded := true }, result := RunResult.success, fault := none }
    else
      { tr := tr1, result := RunResult.dbError, fault := none }
  else
    { tr := tr0, result := RunResult.noMessages, fault := none }

/-- The whole of `exports.handler`: IMAP connect, mailbox lock, the
`try` body, the `finally` clause releasing the lock on every exit path,
then — only when nothing was thrown — logout and the HTTP-shaped
return value with status 200 and the serialized `result`. -/
def handlerRun (env : Env) : Outcome :=
  if !env.connectOk then
    { tr := {}, result := RunResult.failedInit, response := none,
      fault := some Fault.connectFailed }
  else if !env.lockOk then
    { tr := { connected := true }, result := RunResult.failedInit, response := none,
      fault := some Fault.lockFailed }
  else
    let st := tryBody env
    let trR := { st.tr with lockReleased := true }
    match st.fault with
    | some f => { tr := trR, result := st.result, response := none, fault := some f }
    | none =>
        { tr := { trR with loggedOut := true }, result := st.result,
          response := some { statusCode := 200, body := jsonStringify st.result },
          fault := none }

/-- The `seen` list a completed loop produces: UIDs of the messages in
order, each kept only at its first occurrence. -/
def seenSpec (acc : List Nat) : List FetchedMsg → List Nat
  | [] => acc
  | m :: rest => seenSpec (if acc.contains m.uid then acc else acc ++ [m.uid]) rest

/-- A message none of whose external calls fail. -/
def goodMsg (m : FetchedMsg) : Prop :=
  m.decodeOk = true ∧ m.emlPutOk = true ∧
    (List.range m.original.attachments.length).all m.attPutOk = true

/-- A run in which the mailbox and database are reachable, a bucket is
configured, and no decode or storage call fails.  Nothing is assumed
about the stored-procedure outcomes. -/
def goodEnv (env : Env) : Prop :=
  env.connectOk = true ∧ env.lockOk = true ∧ 0 < env.statusMessages ∧
    env.dbConnectOk = true ∧ (∃ b, env.emailBucket = some b) ∧
    ∀ m ∈ env.messages, goodMsg m

/-- An original message addressed to alice with one PDF attachment. -/
def origAlice : Original :=
  { fromAddr := "bob@example.com", toAddr := "alice@example.com", subject := "Hi",
    messageId := "<id123@mail.example.com>",
    attachments := [{ filename := "report.pdf", contentType := "application/pdf" }] }

/-- Message uid 7: decode and both uploads succeed, the stored-procedure
call fails. -/
def msgPersistFail : FetchedMsg :=
  { uid := 7, decodeOk := true, emlPutOk := true, attPutOk := fun _ => true,
    persistOk := false, original := origAlice }

/-- Message uid 1: every external call succeeds. -/
def msgOk1 : FetchedMsg :=
  { uid := 1, decodeOk := true, emlPutOk := true, attPutOk := fun _ => true,
    persistOk := true, original := origAlice }

/-- Message uid 2: the `.eml` upload fails. -/
def msgPutFail2 : FetchedMsg :=
  { uid := 2, decodeOk := true, emlPutOk := false, attPutOk := fun _ => true,
    persistOk := true, original := origAlice }

/-- Message uid 5: the `.eml` upload fails. -/
def msgPutFail5 : FetchedMsg :=
  { uid := 5, decodeOk := true, emlPutOk := false, attPutOk := fun _ => true,
    persistOk := true, original := origAlice }

/-- One message whose persistence call fails, everything else healthy. -/
def envPersistFail : Env :=
  { connectOk := true, lockOk := true, statusMessages := 1, dbConnectOk := true,
    emailBucket := some "mail-bucket", year := 2025, month := 3,
    messages := [msgPersistFail], ts := fun _ _ => 1000 }

/-- Two messages; the second's `.eml` upload fails. -/
def envSecondPutFails : Env :=
  { connectOk := true, lockOk := true, statusMessages := 2, dbConnectOk := true,
    emailBucket := some "mail-bucket", year := 2025, month := 3,
    messages := [msgOk1, msgPutFail2], ts := fun _ _ => 1000 }

/-- One message whose `.eml` upload fails. -/
def envOnlyPutFails : Env :=
  { connectOk := true, lockOk := true, statusMessages := 1, dbConnectOk := true,
    emailBucket := some "mail-bucket", year := 2025, month := 3,
    messages := [msgPutFail5], ts := fun _ _ => 1000 }

/-- Empty mailbox: the status check reports zero messages. -/
def envEmpty : Env :=
  { connectOk := true, lockOk := true, statusMessages := 0, dbConnectOk := true,
    emailBucket := some "mail-bucket", year := 2025, month := 3,
    messages := [], ts := fun _ _ => 1000 }

/-- `EMAIL_BUCKET` absent; mailbox and database healthy. -/
def envNoBucket : Env :=
  { connectOk := true, lockOk := true, statusMessages := 1, dbConnectOk := true,
    emailBucket := none, year := 2025, month := 3,
    messages := [msgOk1], ts := fun _ _ => 1000 }

/-- Database connection fails; mailbox healthy and non-empty. -/
def envDbDown : Env :=
  { connectOk := true, lockOk := true, statusMessages := 1, dbConnectOk := false,
    emailBucket := some "mail-bucket", year := 2025, month := 3,
    messages := [msgOk1], ts := fun _ _ => 1000 }

/-- Fully healthy run with a single message. -/
def envHappy : Env :=
  { connectOk := true, lockOk := true, statusMessages := 1, dbConnectOk := true,
    emailBucket := some "mail-bucket", year := 2025, month := 3,
    messages := [msgOk1], ts := fun _ _ => 1000 }

/-- Decimal digit characters of `n`, most significant first; proved
below to be exactly the character data of `Nat.repr n`. -/
def decChars (n : Nat) : List Char :=
  if n = 0 then ['0'] else ((Nat.digits 10 n).map Nat.digitChar).reverse

/-- Shape of one recorded S3 put: correct bucket, and a key that lives
under the folder derived from the current year/month and the recipient
of one of the run's fetched messages. -/
def keyShaped (env : Env) (bucket : String) (e : String × String) : Prop :=
  e.1 = bucket ∧ ∃ m, m ∈ env.messages ∧ ∃ fn : String,
    e.2 = folderFor env.year env.month m.original.toAddr ++ "/" ++ fn

/-- C1: evaluation of the handler on a run whose single message (uid 7)
decodes and uploads fine but whose stored-procedure call fails.  The
code still pushes uid 7 onto `seen`, finalizes it (flag, move, delete)
and reports success, so the message is removed from the mailbox although
its EmailRecord was never written — the claimed invariant (UID enters
ProcessedSet only after durable persistence; on persistence failure the
message stays in the mailbox) is violated by the code. -/
theorem C1_persist_failure_uid_still_finalized :
    envPersistFail.messages.map (fun m => m.persistOk) = [false] ∧
    (handlerRun envPersistFail).tr.dbSaves = [7] ∧
    (handlerRun envPersistFail).tr.seen = [7] ∧
    (handlerRun envPersistFail).tr.flagged = some [7] ∧
    (handlerRun envPersistFail).tr.moved = some [7] ∧
    (handlerRun envPersistFail).tr.deleted = some [7] ∧
    (handlerRun envPersistFail).result = RunResult.success := by
  decide

/-- C2 counterexample: two messages, the second's `.eml` upload fails.
uid 1 is already in the seen set, yet the run performs no finalization
at all (no flag, move or delete call) and the storage error escapes —
refuting the claim that after a StorageWriteError the run still
finalizes exactly the UIDs already processed. -/
theorem C2_counterexample_storage_error_skips_finalization :
    (handlerRun envSecondPutFails).tr.seen = [1] ∧
    (handlerRun envSecondPutFails).fault = some (Fault.storageWrite 2) ∧
    (handlerRun envSecondPutFails).tr.flagged = none ∧
    (handlerRun envSecondPutFails).tr.moved = none ∧
    (handlerRun envSecondPutFails).tr.deleted = none := by
  decide

/-- C3 counterexample: the mailbox lock was obtained, then a storage
write failed; the handler produces no result payload — the storage
error propagates as an unhandled fault (and logout is skipped), refuting
the claim that the caller always receives a payload once the lock was
obtainable. -/
theorem C3_counterexample_storage_error_is_unhandled :
    (handlerRun envOnlyPutFails).tr.lockAcquired = true ∧
    (handlerRun envOnlyPutFails).response = none ∧
    (handlerRun envOnlyPutFails).fault = some (Fault.storageWrite 5) ∧
    (handlerRun envOnlyPutFails).tr.loggedOut = false := by
  decide

/-- C4 counterexample: with zero messages the handler's result is
`\x7bsuccess:false, error:'No messages in INBOX'\x7d` — a failure marker, not
the success the claim states. -/
theorem C4_counterexample_no_messages_marked_failure :
    (handlerRun envEmpty).result = RunResult.noMessages ∧
    (handlerRun envEmpty).result ≠ RunResult.success ∧
    (handlerRun envEmpty).response =
      some { statusCode := 200,
             body := "\x7b\"success\":false,\"error\":\"No messages in INBOX\"\x7d" } := by
  decide

/-- C5 counterexample: with `EMAIL_BUCKET` absent the run does throw a
missing-bucket error, but only after the IMAP connect, the mailbox lock,
the status check and the database connection attempt have all happened —
refuting `aborts before any mailbox interaction`. -/
theorem C5_counterexample_bucket_checked_after_mailbox_interaction :
    (handlerRun envNoBucket).fault = some Fault.bucketMissing ∧
    (handlerRun envNoBucket).tr.connected = true ∧
    (handlerRun envNoBucket).tr.lockAcquired = true ∧
    (handlerRun envNoBucket).tr.statusChecked = true ∧
    (handlerRun envNoBucket).tr.dbConnectTried = true := by
  decide

/-- C7 counterexample: a fully successful run returns the payload
`\x7bsuccess:true\x7d`; it carries no `processedCount` field, refuting the
claimed `\x7bsuccess:true, processedCount\x7d` terminal shape. -/
theorem C7_counterexample_success_has_no_processedCount :
    (handlerRun envHappy).result = RunResult.success ∧
    (handlerRun envHappy).response =
      some { statusCode := 200, body := "\x7b\"success\":true\x7d" } ∧
    ¬ ("processedCount".data <:+: (jsonStringify RunResult.success).data) := by
  decide

/-- `Nat.toDigitsCore` in base 10 prepends the decimal digits of `n` to
its accumulator, provided the fuel suffices. -/
theorem toDigitsCore_eq_decChars :
    ∀ (fuel n : Nat) (acc : List Char), n < fuel →
      Nat.toDigitsCore 10 fuel n acc = decChars n ++ acc := by
  intro fuel
  induction fuel with
  | zero => intro n acc h; omega
  | succ f ih =>
    intro n acc _h
    by_cases h0 : n / 10 = 0
    · have hn10 : n < 10 := by omega
      by_cases hn : n = 0
      · subst hn
        have hd : Nat.digitChar (0 % 10) = '0' := by decide
        simp [Nat.toDigitsCore, decChars, hd]
      · have hdig : Nat.digits 10 n = [n] := Nat.digits_of_lt 10 n hn hn10
        have hmod : n % 10 = n := Nat.mod_eq_of_lt hn10
        simp [Nat.toDigitsCore, h0, decChars, hn, hdig, hmod]
    · have hnpos : 0 < n := by omega
      have hlt : n / 10 < f := by
        have := Nat.div_lt_self hnpos (by norm_num : 1 < 10)
        omega
      have key : decChars n = decChars (n / 10) ++ [Nat.digitChar (n % 10)] := by
        have hd := Nat.digits_def' (by norm_num : 1 < 10) hnpos
        simp [decChars, hd, hnpos.ne', h0]
      simp only [Nat.toDigitsCore, h0, if_false]
      rw [ih (n / 10) (Nat.digitChar (n % 10) :: acc) hlt, key]
      simp

/-- The characters of `Nat.repr n` are the decimal digits of `n`. -/
theorem repr_data (n : Nat) : (Nat.repr n).data = decChars n := by
  have h := toDigitsCore_eq_decChars (n + 1) n [] (Nat.lt_succ_self n)
  simp only [Nat.repr, Nat.toDigits, List.asString, h, List.append_nil]

/-- No digit character of a base-10 digit is a dot. -/
theorem digitChar_lt10_ne_dot : ∀ d < 10, Nat.digitChar d ≠ '.' := by decide

/-- `Nat.digitChar` is injective on base-10 digits. -/
theorem digitChar_lt10_inj :
    ∀ a < 10, ∀ b < 10, Nat.digitChar a = Nat.digitChar b → a = b := by decide

/-- The decimal representation of a number contains no dot. -/
theorem decChars_ne_dot (n : Nat) : '.' ∉ decChars n := by
  by_cases hn : n = 0
  · subst hn; decide
  · simp only [decChars, hn, if_false, List.mem_reverse, List.mem_map]
    rintro ⟨d, hd, he⟩
    exact digitChar_lt10_ne_dot d (Nat.digits_lt_base (by norm_num) hd) he

/-- Decimal length is monotone. -/
theorem decChars_length_mono {m n : Nat} (h : m ≤ n) :
    (decChars m).length ≤ (decChars n).length := by
  by_cases hm : m = 0
  · subst hm
    by_cases hn : n = 0
    · subst hn; exact le_refl _
    · have hne : Nat.digits 10 n ≠ [] := Nat.digits_ne_nil_iff_ne_zero.mpr hn
      simp only [decChars, hn, if_false, List.length_reverse, List.length_map]
      simpa [decChars] using List.length_pos.mpr hne
  · have hn : n ≠ 0 := by omega
    simp only [decChars, hm, hn, if_false, List.length_reverse, List.length_map,
      Nat.digits_len 10 m (by norm_num) hm, Nat.digits_len 10 n (by norm_num) hn]
    exact Nat.succ_le_succ (Nat.log_mono_right h)

/-- Mapping `Nat.digitChar` over lists of base-10 digits is injective. -/
theorem map_digitChar_inj :
    ∀ (l1 l2 : List Nat), (∀ d ∈ l1, d < 10) → (∀ d ∈ l2, d < 10) →
      l1.map Nat.digitChar = l2.map Nat.digitChar → l1 = l2 := by
  intro l1
  induction l1 with
  | nil =>
    intro l2 _ _ h
    cases l2 with
    | nil => rfl
    | cons b t => simp at h
  | cons a t1 ih =>
    intro l2 h1 h2 h
    cases l2 with
    | nil => simp at h
    | cons b t2 =>
      simp only [List.map_cons, List.cons.injEq] at h
      have ha : a < 10 := h1 a (by simp)
      have hb : b < 10 := h2 b (by simp)
      have hab : a = b := digitChar_lt10_inj a ha b hb h.1
      have ht : t1 = t2 :=
        ih t2 (fun d hd => h1 d (by simp [hd])) (fun d hd => h2 d (by simp [hd])) h.2
      rw [hab, ht]

/-- Decimal representations are injective. -/
theorem decChars_inj {m n : Nat} (h : decChars m = decChars n) : m = n := by
  have zero_case : ∀ k : Nat, k ≠ 0 → decChars 0 ≠ decChars k := by
    intro k hk hEq
    simp only [decChars, hk, if_false, if_pos rfl] at hEq
    have h1 : (Nat.digits 10 k).map Nat.digitChar = ['0'] := by
      have := congrArg List.reverse hEq
      simpa using this.symm
    have hlen : ((Nat.digits 10 k).map Nat.digitChar).length = 1 := by rw [h1]; rfl
    simp only [List.length_map] at hlen
    obtain ⟨d, hd⟩ := List.length_eq_one.mp hlen
    rw [hd] at h1
    simp only [List.map_cons, List.map_nil, List.cons.injEq] at h1
    have hd10 : d < 10 := @Nat.digits_lt_base 10 k d (by norm_num) (by simp [hd])
    have hd0 : d = 0 := digitChar_lt10_inj d hd10 0 (by norm_num) (by simpa using h1.1)
    have : k = 0 := by
      have := Nat.ofDigits_digits 10 k
      rw [hd, hd0] at this
      simpa [Nat.ofDigits] using this.symm
    exact hk this
  by_cases hm : m = 0 <;> by_cases hn : n = 0
  · omega
  · exact absurd (hm ▸ h) (zero_case n hn)
  · exact absurd (hn ▸ h.symm) (zero_case m hm)
  · simp only [decChars, hm, hn, if_false] at h
    have h2 := congrArg List.reverse h
    simp only [List.reverse_reverse] at h2
    have hdig : Nat.digits 10 m = Nat.digits 10 n :=
      map_digitChar_inj _ _ (fun d hd => Nat.digits_lt_base (by norm_num) hd)
        (fun d hd => Nat.digits_lt_base (by norm_num) hd) h2
    have := Nat.ofDigits_digits 10 m
    rw [hdig, Nat.ofDigits_digits] at this
    exact this.symm

/-- Splitting at the first dot: if neither prefix contains a dot, equal
concatenations force equal components. -/
theorem append_dot_inj :
    ∀ (u1 u2 v1 v2 : List Char), '.' ∉ u1 → '.' ∉ u2 →
      u1 ++ '.' :: v1 = u2 ++ '.' :: v2 → u1 = u2 ∧ v1 = v2 := by
  intro u1
  induction u1 with
  | nil =>
    intro u2 v1 v2 _ h2 h
    cases u2 with
    | nil => simpa using h
    | cons c t =>
      simp only [List.nil_append, List.cons_append, List.cons.injEq] at h
      exact absurd (h.1 ▸ List.mem_cons_self c t) h2
  | cons c t ih =>
    intro u2 v1 v2 h1 h2 h
    cases u2 with
    | nil =>
      simp only [List.nil_append, List.cons_append, List.cons.injEq] at h
      exact absurd (h.1 ▸ List.mem_cons_self c t) h1
    | cons d t2 =>
      simp only [List.cons_append, List.cons.injEq] at h
      have := ih t2 v1 v2 (fun hm => h1 (List.mem_cons_of_mem c hm))
        (fun hm => h2 (List.mem_cons_of_mem d hm)) h.2
      exact ⟨by rw [h.1, this.1], this.2⟩

/-- The extension appended to an attachment filename never contains a
dot (it is either the post-last-dot suffix or the text `undefined`). -/
theorem ext_ne_dot (s : String) : '.' ∉ ((getFileExtension s).getD "undefined").data := by
  by_cases hc : s.data.contains '.' = true
  · have he : getFileExtension s = some (extAfterLastDot s) := by
      unfold getFileExtension
      rw [if_pos hc]
    rw [he, Option.getD_some]
    intro hm
    have hm2 : '.' ∈ (s.data.reverse.takeWhile (fun c => c ≠ '.')).reverse := hm
    rw [List.mem_reverse] at hm2
    have := List.mem_takeWhile_imp hm2
    simp at this
  · have he : getFileExtension s = none := by
      unfold getFileExtension
      rw [if_neg hc]
    rw [he, Option.getD_none]
    decide

/-- Core collision-freedom: with a non-decreasing clock and increasing
indices, two generated attachment filenames never coincide. -/
theorem attFilename_ne {a b i j : Nat} (hab : a ≤ b) (hij : i < j)
    (n1 n2 : String) : attFilename a i n1 ≠ attFilename b j n2 := by
  intro h
  have hdata := congrArg String.data h
  simp only [attFilename, String.data_append, repr_data, List.append_assoc,
    List.singleton_append] at hdata
  rw [← List.append_assoc, ← List.append_assoc] at hdata
  have hu1 : '.' ∉ decChars a ++ decChars i := by
    intro hm
    rcases List.mem_append.mp hm with hm | hm
    · exact decChars_ne_dot a hm
    · exact decChars_ne_dot i hm
  have hu2 : '.' ∉ decChars b ++ decChars j := by
    intro hm
    rcases List.mem_append.mp hm with hm | hm
    · exact decChars_ne_dot b hm
    · exact decChars_ne_dot j hm
  obtain ⟨hu, _⟩ := append_dot_inj _ _ _ _ hu1 hu2 hdata
  have hlen := congrArg List.length hu
  simp only [List.length_append] at hlen
  have hla : (decChars a).length ≤ (decChars b).length := decChars_length_mono hab
  have hli : (decChars i).length ≤ (decChars j).length := decChars_length_mono hij.le
  have hlena : (decChars a).length = (decChars b).length := by omega
  obtain ⟨_, hdi⟩ := List.append_inj hu hlena
  exact absurd (decChars_inj hdi) hij.ne

/-- C9: within one message, the generated attachment blob filenames
`<epoch-millis><index>.<extension>` are pairwise distinct whatever the
original filenames (hence also when two attachments share a name and
content type), provided the millisecond clock sampled per attachment is
non-decreasing across the in-order `Date.now()` calls. -/
theorem C9_attachment_filenames_pairwise_distinct
    (ts : Nat → Nat) (names : Nat → String)
    (hmono : ∀ i j, i ≤ j → ts i ≤ ts j) :
    ∀ i j, i ≠ j → attFilename (ts i) i (names i) ≠ attFilename (ts j) j (names j) := by
  intro i j hne
  rcases Nat.lt_or_ge i j with hij | hge
  · exact attFilename_ne (hmono i j hij.le) hij (names i) (names j)
  · have hji : j < i := Nat.lt_of_le_of_ne hge (Ne.symm hne)
    exact (attFilename_ne (hmono j i hji.le) hji (names j) (names i)).symm

/-- C9 witness: a constant clock and two attachments with the same
original filename still get distinct generated filenames. -/
theorem C9_witness :
    attFilename 5 0 "report.pdf" ≠ attFilename 5 1 "report.pdf" :=
  C9_attachment_filenames_pairwise_distinct (fun _ => 5) (fun _ => "report.pdf")
    (fun _ _ _ => le_refl 5) 0 1 (by decide)

/-- Processing one message never touches the finalizer calls, the lock,
the logout flag or the pre-loop trace bits. -/
theorem procOne_preserves (env : Env) (bucket : String) (p : Nat) (m : FetchedMsg)
    (s : MState) :
    (procOne env bucket p m s).tr.flagged = s.tr.flagged ∧
    (procOne env bucket p m s).tr.moved = s.tr.moved ∧
    (procOne env bucket p m s).tr.deleted = s.tr.deleted := by
  unfold procOne
  split
  · exact ⟨rfl, rfl, rfl⟩
  split
  · exact ⟨rfl, rfl, rfl⟩
  split
  · exact ⟨rfl, rfl, rfl⟩
  split
  · exact ⟨rfl, rfl, rfl⟩
  · exact ⟨rfl, rfl, rfl⟩

/-- The message loop never touches the finalizer calls. -/
theorem procMsgs_preserves (env : Env) (bucket : String) :
    ∀ (l : List FetchedMsg) (p : Nat) (s : MState),
      (procMsgs env bucket p l s).tr.flagged = s.tr.flagged ∧
      (procMsgs env bucket p l s).tr.moved = s.tr.moved ∧
      (procMsgs env bucket p l s).tr.deleted = s.tr.deleted := by
  intro l
  induction l with
  | nil => intro p s; exact ⟨rfl, rfl, rfl⟩
  | cons m rest ih =>
    intro p s
    simp only [procMsgs]
    cases hf : (procOne env bucket p m s).fault with
    | some f => exact procOne_preserves env bucket p m s
    | none =>
      have h1 := ih (p + 1) (procOne env bucket p m s)
      have h2 := procOne_preserves env bucket p m s
      exact ⟨h1.1.trans h2.1, h1.2.1.trans h2.2.1, h1.2.2.trans h2.2.2⟩

/-- On a message whose decode and uploads succeed, processing throws
nothing and appends the UID to `seen` exactly when it is new — whether
or not the stored-procedure call succeeded. -/
theorem procOne_good (env : Env) (bucket : String) (p : Nat) (m : FetchedMsg) (s : MState)
    (hm : goodMsg m) :
    (procOne env bucket p m s).fault = s.fault ∧
    (procOne env bucket p m s).tr.seen =
      (if s.tr.seen.contains m.uid then s.tr.seen else s.tr.seen ++ [m.uid]) := by
  obtain ⟨h1, h2, h3⟩ := hm
  unfold procOne
  simp only [h1, h2, h3, Bool.not_true, Bool.false_eq_true, if_false]
  by_cases hc : m.uid ∈ s.tr.seen <;> simp [hc]

/-- On a list of messages with no decode or upload failure, the loop
finishes without a fault and `seen` collects the first occurrence of
every UID, independently of the stored-procedure outcomes. -/
theorem procMsgs_good (env : Env) (bucket : String) :
    ∀ (l : List FetchedMsg) (p : Nat) (s : MState), s.fault = none →
      (∀ m ∈ l, goodMsg m) →
      (procMsgs env bucket p l s).fault = none ∧
      (procMsgs env bucket p l s).tr.seen = seenSpec s.tr.seen l := by
  intro l
  induction l with
  | nil => intro p s hs _; exact ⟨hs, rfl⟩
  | cons m rest ih =>
    intro p s hs hl
    have hg := procOne_good env bucket p m s (hl m (by simp))
    have hf : (procOne env bucket p m s).fault = none := hg.1.trans hs
    simp only [procMsgs, hf]
    have hrest := ih (p + 1) (procOne env bucket p m s) hf (fun x hx => hl x (by simp [hx]))
    refine ⟨hrest.1, ?_⟩
    rw [hrest.2, hg.2]
    simp only [seenSpec]

/-- If the try block ends with a pending exception, no finalizer call
(flag, move, delete) was ever issued. -/
theorem tryBody_fault_finalizers (env : Env) (f : Fault)
    (h : (tryBody env).fault = some f) :
    (tryBody env).tr.flagged = none ∧ (tryBody env).tr.moved = none ∧
    (tryBody env).tr.deleted = none := by
  unfold tryBody at h ⊢
  by_cases h1 : 0 < env.statusMessages
  · by_cases h2 : env.dbConnectOk = true
    · cases hb : env.emailBucket with
      | none => simp [h1, h2, hb]
      | some bucket =>
        simp only [h1, h2, hb, if_true, if_pos] at h ⊢
        cases hf : (procMsgs env bucket 0 env.messages
            { tr := { connected := true, lockAcquired := true, statusChecked := true,
                      dbConnectTried := true, fetchStarted := true },
              result := RunResult.failedInit, fault := none }).fault with
        | some g =>
          simp only [hf]
          have hp := procMsgs_preserves env bucket env.messages 0
            { tr := { connected := true, lockAcquired := true, statusChecked := true,
                      dbConnectTried := true, fetchStarted := true },
              result := RunResult.failedInit, fault := none }
          exact hp
        | none => simp [hf] at h
    · simp [h1, h2] at h
  · simp [h1] at h

/-- On a good run the try block ends without exception, sets the result
to `success`, and `seen` holds the first occurrence of every fetched
UID; the finalizers target exactly that list when it is non-empty. -/
theorem tryBody_good (env : Env) (hg : goodEnv env) :
    (tryBody env).fault = none ∧
    (tryBody env).result = RunResult.success ∧
    (tryBody env).tr.seen = seenSpec [] env.messages ∧
    (tryBody env).tr.flagged =
      (if (seenSpec [] env.messages).isEmpty then none else some (seenSpec [] env.messages)) ∧
    (tryBody env).tr.moved =
      (if (seenSpec [] env.messages).isEmpty then none else some (seenSpec [] env.messages)) ∧
    (tryBody env).tr.deleted =
      (if (seenSpec [] env.messages).isEmpty then none else some (seenSpec [] env.messages)) := by
  obtain ⟨hc, hl, hs, hd, ⟨b, hb⟩, hmsgs⟩ := hg
  unfold tryBody
  simp only [hs, hd, hb, if_true, if_pos]
  have hpm := procMsgs_good env b env.messages 0
    { tr := { connected := true, lockAcquired := true, statusChecked := true,
              dbConnectTried := true, fetchStarted := true },
      result := RunResult.failedInit, fault := none } rfl hmsgs
  have hpre := procMsgs_preserves env b env.messages 0
    { tr := { connected := true, lockAcquired := true, statusChecked := true,
              dbConnectTried := true, fetchStarted := true },
      result := RunResult.failedInit, fault := none }
  simp only [hpm.1]
  have hseen : (procMsgs env b 0 env.messages
      { tr := { connected := true, lockAcquired := true, statusChecked := true,
                dbConnectTried := true, fetchStarted := true },
        result := RunResult.failedInit, fault := none }).tr.seen =
      seenSpec [] env.messages := hpm.2
  by_cases he : (seenSpec [] env.messages).isEmpty = true <;>
    simp [he, hseen, hpre.1, hpre.2.1, hpre.2.2]

/-- The caller receives a payload exactly when no exception escaped. -/
theorem handlerRun_response_iff_fault (env : Env) :
    ((handlerRun env).fault = none) ↔ (∃ r, (handlerRun env).response = some r) := by
  unfold handlerRun
  cases hcb : env.connectOk with
  | false => simp
  | true =>
    cases hlb : env.lockOk with
    | false => simp
    | true =>
      simp only [Bool.not_true, Bool.false_eq_true, if_false]
      cases hf : (tryBody env).fault <;> simp [hf]

/-- Once the mailbox lock is acquired it is released on every exit path
(the `finally` clause). -/
theorem handlerRun_lock_release (env : Env)
    (h : (handlerRun env).tr.lockAcquired = true) :
    (handlerRun env).tr.lockReleased = true := by
  unfold handlerRun at h ⊢
  cases hcb : env.connectOk with
  | false => rw [hcb] at h; simp at h
  | true =>
    cases hlb : env.lockOk with
    | false => rw [hcb, hlb] at h; simp at h
    | true =>
      simp only [Bool.not_true, Bool.false_eq_true, if_false]
      cases hf : (tryBody env).fault <;> simp [hf]

/-- Any escaped exception means: no finalizer call was made and no
payload was returned. -/
theorem handlerRun_fault_no_finalize (env : Env) (f : Fault)
    (h : (handlerRun env).fault = some f) :
    (handlerRun env).tr.flagged = none ∧ (handlerRun env).tr.moved = none ∧
    (handlerRun env).tr.deleted = none ∧ (handlerRun env).response = none := by
  unfold handlerRun at h ⊢
  cases hcb : env.connectOk with
  | false => simp
  | true =>
    cases hlb : env.lockOk with
    | false => simp
    | true =>
      rw [hcb, hlb] at h
      simp only [Bool.not_true, Bool.false_eq_true, if_false] at h
      simp only [Bool.not_true, Bool.false_eq_true, if_false]
      cases hf : (tryBody env).fault with
      | none => rw [hf] at h; simp at h
      | some g =>
        have hfin := tryBody_fault_finalizers env g hf
        simp [hf, hfin.1, hfin.2.1, hfin.2.2]

/-- A good run: no exception, result `success`, `seen` is the first
occurrence of every fetched UID, the finalizers target exactly `seen`
when non-empty, and the returned payload is the serialized success. -/
theorem handlerRun_good (env : Env) (hg : goodEnv env) :
    (handlerRun env).fault = none ∧
    (handlerRun env).result = RunResult.success ∧
    (handlerRun env).tr.seen = seenSpec [] env.messages ∧
    (handlerRun env).tr.flagged =
      (if (seenSpec [] env.messages).isEmpty then none else some (seenSpec [] env.messages)) ∧
    (handlerRun env).tr.moved =
      (if (seenSpec [] env.messages).isEmpty then none else some (seenSpec [] env.messages)) ∧
    (handlerRun env).tr.deleted =
      (if (seenSpec [] env.messages).isEmpty then none else some (seenSpec [] env.messages)) ∧
    (handlerRun env).response =
      some { statusCode := 200, body := jsonStringify RunResult.success } := by
  have ht := tryBody_good env hg
  unfold handlerRun
  rw [hg.1, hg.2.1]
  simp only [Bool.not_true, Bool.false_eq_true, if_false]
  simp [ht.1, ht.2.1, ht.2.2.1, ht.2.2.2.1, ht.2.2.2.2.1, ht.2.2.2.2.2]

/-- When the try block ends without exception, the `result` variable is
one of the three shapes actually assigned on a normal path: the trailing
`result = \x7bsuccess:true\x7d` assignment, the empty-mailbox failure, or the
database-connect failure; never the initial `\x7bfailed:true\x7d` and never a
raw stored-procedure result. -/
theorem tryBody_result_shapes (env : Env) (h : (tryBody env).fault = none) :
    (tryBody env).result = RunResult.success ∨
    (tryBody env).result = RunResult.noMessages ∨
    (tryBody env).result = RunResult.dbError := by
  unfold tryBody at h ⊢
  by_cases h1 : 0 < env.statusMessages
  · by_cases h2 : env.dbConnectOk = true
    · cases hb : env.emailBucket with
      | none => simp [h1, h2, hb] at h
      | some bucket =>
        simp only [h1, h2, hb, if_true] at h ⊢
        cases hf : (procMsgs env bucket 0 env.messages
            { tr := { connected := true, lockAcquired := true, statusChecked := true,
                      dbConnectTried := true, fetchStarted := true },
              result := RunResult.failedInit, fault := none }).fault with
        | some g => simp [hf] at h
        | none => left; simp [hf]
    · simp [h1, h2]
  · simp [h1]

/-- A returned payload pins down the whole exit path: the try block
ended without exception, the outcome's result is the try block's result,
and the payload is status 200 with that result serialized. -/
theorem handlerRun_response_result (env : Env) (r : Resp)
    (h : (handlerRun env).response = some r) :
    (handlerRun env).result = (tryBody env).result ∧ (tryBody env).fault = none ∧
    r.statusCode = 200 ∧ r.body = jsonStringify (tryBody env).result := by
  unfold handlerRun at h ⊢
  cases hcb : env.connectOk with
  | false => rw [hcb] at h; simp at h
  | true =>
    cases hlb : env.lockOk with
    | false => rw [hcb, hlb] at h; simp at h
    | true =>
      rw [hcb, hlb] at h
      simp only [Bool.not_true, Bool.false_eq_true, if_false] at h
      simp only [Bool.not_true, Bool.false_eq_true, if_false]
      cases hf : (tryBody env).fault with
      | some g => rw [hf] at h; simp at h
      | none =>
        rw [hf] at h
        simp only [Option.some.injEq] at h
        rw [← h]
        simp [hf]

/-- C2 (amended): a StorageWriteError aborts the remaining iteration and
also skips finalization entirely — no flag/move/delete call is made and
the error escapes with no payload — while a PersistenceError aborts
nothing: on a run with no decode or storage failure the loop finishes
without exception and `seen` still collects every fetched UID, whatever
the stored-procedure outcomes. -/
theorem C2_amended_error_iteration_policy :
    (∀ (env : Env) (u : Nat), (handlerRun env).fault = some (Fault.storageWrite u) →
      (handlerRun env).tr.flagged = none ∧ (handlerRun env).tr.moved = none ∧
      (handlerRun env).tr.deleted = none ∧ (handlerRun env).response = none) ∧
    (∀ env : Env, goodEnv env →
      (handlerRun env).fault = none ∧
      (handlerRun env).tr.seen = seenSpec [] env.messages) := by
  constructor
  · intro env u h
    exact handlerRun_fault_no_finalize env (Fault.storageWrite u) h
  · intro env hg
    have h := handlerRun_good env hg
    exact ⟨h.1, h.2.2.1⟩

/-- C2 witness: the two-message storage-failure run really does skip
finalization, and the persistence-failure run really does keep uid 7 in
`seen`. -/
theorem C2_amended_witness :
    ((handlerRun envSecondPutFails).tr.flagged = none ∧
     (handlerRun envSecondPutFails).tr.moved = none ∧
     (handlerRun envSecondPutFails).tr.deleted = none ∧
     (handlerRun envSecondPutFails).response = none) ∧
    ((handlerRun envPersistFail).fault = none ∧
     (handlerRun envPersistFail).tr.seen = seenSpec [] envPersistFail.messages) :=
  ⟨C2_amended_error_iteration_policy.1 envSecondPutFails 2 (by decide),
   C2_amended_error_iteration_policy.2 envPersistFail
     ⟨rfl, rfl, by decide, rfl, ⟨"mail-bucket", rfl⟩,
      by intro m hm; cases hm with
         | head => exact ⟨rfl, rfl, by decide⟩
         | tail _ h => cases h⟩⟩

/-- C3 (amended): once acquired, the mailbox lock is released on every
exit path; the caller receives a result payload exactly when no
exception escapes; and a run whose decode and storage calls all succeed
(persistence failures allowed) escapes no exception — but decode and
storage-write errors do propagate as unhandled faults. -/
theorem C3_amended_lock_release_and_payload :
    (∀ env : Env, (handlerRun env).tr.lockAcquired = true →
      (handlerRun env).tr.lockReleased = true) ∧
    (∀ env : Env, ((handlerRun env).fault = none) ↔
      (∃ r, (handlerRun env).response = some r)) ∧
    (∀ env : Env, goodEnv env → (handlerRun env).fault = none) := by
  refine ⟨handlerRun_lock_release, handlerRun_response_iff_fault, ?_⟩
  intro env hg
  exact (handlerRun_good env hg).1

/-- C3 witness: the lock-release and payload facts instantiated on the
healthy single-message run. -/
theorem C3_amended_witness :
    (handlerRun envHappy).tr.lockReleased = true ∧
    (((handlerRun envHappy).fault = none) ↔
      (∃ r, (handlerRun envHappy).response = some r)) ∧
    (handlerRun envHappy).fault = none :=
  ⟨C3_amended_lock_release_and_payload.1 envHappy (by decide),
   C3_amended_lock_release_and_payload.2.1 envHappy,
   C3_amended_lock_release_and_payload.2.2 envHappy
     ⟨rfl, rfl, by decide, rfl, ⟨"mail-bucket", rfl⟩,
      by intro m hm; cases hm with
         | head => exact ⟨rfl, rfl, by decide⟩
         | tail _ h => cases h⟩⟩

/-- C4 (amended): a zero-message mailbox yields the failure result
`\x7bsuccess:false, error:'No messages in INBOX'\x7d` (not a success), and no
blob write, no stored-procedure call and no database connection attempt
happen in that run. -/
theorem C4_amended_empty_mailbox_is_failure :
    ∀ env : Env, env.connectOk = true → env.lockOk = true → env.statusMessages = 0 →
      (handlerRun env).result = RunResult.noMessages ∧
      (handlerRun env).response =
        some { statusCode := 200,
               body := "\x7b\"success\":false,\"error\":\"No messages in INBOX\"\x7d" } ∧
      (handlerRun env).tr.s3Puts = [] ∧
      (handlerRun env).tr.dbSaves = [] ∧
      (handlerRun env).tr.dbConnectTried = false := by
  intro env hc hl hs
  have h0 : ¬ 0 < env.statusMessages := by omega
  unfold handlerRun tryBody
  rw [hc, hl]
  simp [h0, jsonStringify]

/-- C4 witness: the amended statement instantiated on the empty-mailbox
run. -/
theorem C4_amended_witness :
    (handlerRun envEmpty).result = RunResult.noMessages ∧
    (handlerRun envEmpty).response =
      some { statusCode := 200,
             body := "\x7b\"success\":false,\"error\":\"No messages in INBOX\"\x7d" } ∧
    (handlerRun envEmpty).tr.s3Puts = [] ∧
    (handlerRun envEmpty).tr.dbSaves = [] ∧
    (handlerRun envEmpty).tr.dbConnectTried = false :=
  C4_amended_empty_mailbox_is_failure envEmpty rfl rfl rfl

/-- C5 (amended): when `EMAIL_BUCKET` is absent and the run reaches the
bucket check (messages present, database reachable), it throws the
missing-bucket error before any fetch iteration, blob write or
stored-procedure call — but after the IMAP connect, mailbox lock, status
check and database connection attempt; the lock is still released and
the error escapes with no payload. -/
theorem C5_amended_bucket_check_late :
    ∀ env : Env, env.connectOk = true → env.lockOk = true → 0 < env.statusMessages →
      env.dbConnectOk = true → env.emailBucket = none →
      (handlerRun env).fault = some Fault.bucketMissing ∧
      (handlerRun env).tr.fetchStarted = false ∧
      (handlerRun env).tr.s3Puts = [] ∧
      (handlerRun env).tr.dbSaves = [] ∧
      (handlerRun env).tr.seen = [] ∧
      (handlerRun env).tr.flagged = none ∧
      (handlerRun env).tr.connected = true ∧
      (handlerRun env).tr.lockAcquired = true ∧
      (handlerRun env).tr.statusChecked = true ∧
      (handlerRun env).tr.dbConnectTried = true ∧
      (handlerRun env).tr.lockReleased = true ∧
      (handlerRun env).response = none := by
  intro env hc hl hs hd hb
  unfold handlerRun tryBody
  rw [hc, hl, hb]
  simp [hs, hd]

/-- C5 witness: the amended statement instantiated on the bucketless
run. -/
theorem C5_amended_witness :
    (handlerRun envNoBucket).fault = some Fault.bucketMissing ∧
    (handlerRun envNoBucket).tr.fetchStarted = false ∧
    (handlerRun envNoBucket).tr.s3Puts = [] ∧
    (handlerRun envNoBucket).tr.dbSaves = [] ∧
    (handlerRun envNoBucket).tr.seen = [] ∧
    (handlerRun envNoBucket).tr.flagged = none ∧
    (handlerRun envNoBucket).tr.connected = true ∧
    (handlerRun envNoBucket).tr.lockAcquired = true ∧
    (handlerRun envNoBucket).tr.statusChecked = true ∧
    (handlerRun envNoBucket).tr.dbConnectTried = true ∧
    (handlerRun envNoBucket).tr.lockReleased = true ∧
    (handlerRun envNoBucket).response = none :=
  C5_amended_bucket_check_late envNoBucket rfl rfl (by decide) rfl rfl

/-- C6: when the database connection attempt fails on a non-empty
mailbox, no mailbox mutation happens — no flag, move or delete call is
issued — the lock is still released, and the handler returns a payload
marking failure with the db-unreachable reason. -/
theorem C6_db_unreachable_no_mailbox_mutation :
    ∀ env : Env, env.connectOk = true → env.lockOk = true → 0 < env.statusMessages →
      env.dbConnectOk = false →
      (handlerRun env).result = RunResult.dbError ∧
      (handlerRun env).tr.flagged = none ∧
      (handlerRun env).tr.moved = none ∧
      (handlerRun env).tr.deleted = none ∧
      (handlerRun env).tr.dbConnectTried = true ∧
      (handlerRun env).tr.lockReleased = true ∧
      (handlerRun env).response =
        some { statusCode := 200,
               body := "\x7b\"success\":false,\"error\":\"Could not connect to MySQL database\"\x7d" } := by
  intro env hc hl hs hd
  unfold handlerRun tryBody
  rw [hc, hl, hd]
  simp [hs, jsonStringify]

/-- C6 witness: the statement instantiated on the database-down run. -/
theorem C6_witness :
    (handlerRun envDbDown).result = RunResult.dbError ∧
    (handlerRun envDbDown).tr.flagged = none ∧
    (handlerRun envDbDown).tr.moved = none ∧
    (handlerRun envDbDown).tr.deleted = none ∧
    (handlerRun envDbDown).tr.dbConnectTried = true ∧
    (handlerRun envDbDown).tr.lockReleased = true ∧
    (handlerRun envDbDown).response =
      some { statusCode := 200,
             body := "\x7b\"success\":false,\"error\":\"Could not connect to MySQL database\"\x7d" } :=
  C6_db_unreachable_no_mailbox_mutation envDbDown rfl rfl (by decide) rfl

/-- C7 (amended): whenever the handler returns a payload, its terminal
result is exactly one of `\x7bsuccess:true\x7d` (with no processedCount
field), `\x7bsuccess:false, error:'No messages in INBOX'\x7d`, or
`\x7bsuccess:false, error:'Could not connect to MySQL database'\x7d`, and the
payload body is that result serialized. -/
theorem C7_amended_terminal_result_shapes :
    ∀ (env : Env) (r : Resp), (handlerRun env).response = some r →
      ((handlerRun env).result = RunResult.success ∨
       (handlerRun env).result = RunResult.noMessages ∨
       (handlerRun env).result = RunResult.dbError) ∧
      r.body = jsonStringify (handlerRun env).result := by
  intro env r h
  have hr := handlerRun_response_result env r h
  constructor
  · rw [hr.1]
    exact tryBody_result_shapes env hr.2.1
  · rw [hr.1]
    exact hr.2.2.2

/-- C7 witness: the healthy run's payload instantiates the amended
statement. -/
theorem C7_amended_witness :
    ((handlerRun envHappy).result = RunResult.success ∨
     (handlerRun envHappy).result = RunResult.noMessages ∨
     (handlerRun envHappy).result = RunResult.dbError) ∧
    ({ statusCode := 200, body := "\x7b\"success\":true\x7d" } : Resp).body =
      jsonStringify (handlerRun envHappy).result :=
  C7_amended_terminal_result_shapes envHappy
    { statusCode := 200, body := "\x7b\"success\":true\x7d" } (by decide)

/-- C10: whenever the handler returns normally, the returned object has
status code 200 and its body is the JSON serialization of the internal
result — also when that result marks failure; no other status code is
ever produced. -/
theorem C10_response_always_200_with_serialized_result :
    ∀ (env : Env) (r : Resp), (handlerRun env).response = some r →
      r.statusCode = 200 ∧ r.body = jsonStringify (handlerRun env).result := by
  intro env r h
  have hr := handlerRun_response_result env r h
  refine ⟨hr.2.2.1, ?_⟩
  rw [hr.1]
  exact hr.2.2.2

/-- C10 witness: the database-down run returns a failure body and still
status 200. -/
theorem C10_witness :
    ({ statusCode := 200,
       body := "\x7b\"success\":false,\"error\":\"Could not connect to MySQL database\"\x7d" } : Resp).statusCode = 200 ∧
    ({ statusCode := 200,
       body := "\x7b\"success\":false,\"error\":\"Could not connect to MySQL database\"\x7d" } : Resp).body =
      jsonStringify (handlerRun envDbDown).result :=
  C10_response_always_200_with_serialized_result envDbDown
    { statusCode := 200,
      body := "\x7b\"success\":false,\"error\":\"Could not connect to MySQL database\"\x7d" }
    (by decide)

/-- Every key generated by the attachment fan-out lives directly under
the given folder. -/
theorem attKeys_shape (now : Nat → Nat) (folder : String) :
    ∀ (atts : List Attachment) (i : Nat) (k : String), k ∈ attKeys now folder i atts →
      ∃ fn, k = folder ++ "/" ++ fn := by
  intro atts
  induction atts with
  | nil => intro i k hk; simp [attKeys] at hk
  | cons a rest ih =>
    intro i k hk
    simp only [attKeys, List.mem_cons] at hk
    rcases hk with h | h
    · exact ⟨_, h⟩
    · exact ih (i + 1) k h

/-- Processing one fetched message only adds S3 puts of the shaped
form: correct bucket, key under the message's derived folder. -/
theorem procOne_keyShaped (env : Env) (bucket : String) (p : Nat) (m : FetchedMsg)
    (s : MState) (hmem : m ∈ env.messages)
    (hinv : ∀ e ∈ s.tr.s3Puts, keyShaped env bucket e) :
    ∀ e ∈ (procOne env bucket p m s).tr.s3Puts, keyShaped env bucket e := by
  unfold procOne
  split
  · exact hinv
  split
  · exact hinv
  split
  · intro e he
    simp only [List.mem_append, List.mem_singleton] at he
    rcases he with he | he
    · exact hinv e he
    · subst he
      exact ⟨rfl, m, hmem, emlNameOf m.original, rfl⟩
  split <;>
  · intro e he
    simp only [List.mem_append, List.mem_singleton, List.mem_map] at he
    rcases he with (he | he) | ⟨k, hk, he⟩
    · exact hinv e he
    · subst he
      exact ⟨rfl, m, hmem, emlNameOf m.original, rfl⟩
    · obtain ⟨fn, hfn⟩ := attKeys_shape (env.ts p)
        (folderFor env.year env.month m.original.toAddr) m.original.attachments 0 k hk
      subst he
      exact ⟨rfl, m, hmem, fn, by rw [hfn]⟩

/-- The whole message loop preserves the key-shape invariant. -/
theorem procMsgs_keyShaped (env : Env) (bucket : String) :
    ∀ (l : List FetchedMsg) (p : Nat) (s : MState),
      (∀ m ∈ l, m ∈ env.messages) →
      (∀ e ∈ s.tr.s3Puts, keyShaped env bucket e) →
      ∀ e ∈ (procMsgs env bucket p l s).tr.s3Puts, keyShaped env bucket e := by
  intro l
  induction l with
  | nil => intro p s _ hinv; exact hinv
  | cons m rest ih =>
    intro p s hsub hinv
    simp only [procMsgs]
    have h1 := procOne_keyShaped env bucket p m s (hsub m (by simp)) hinv
    cases hf : (procOne env bucket p m s).fault with
    | some f => exact h1
    | none => exact ih (p + 1) _ (fun x hx => hsub x (by simp [hx])) h1

/-- Every S3 put of the try block is shaped. -/
theorem tryBody_keyShaped (env : Env) (bucket : String)
    (hb : env.emailBucket = some bucket) :
    ∀ e ∈ (tryBody env).tr.s3Puts, keyShaped env bucket e := by
  unfold tryBody
  by_cases h1 : 0 < env.statusMessages
  · by_cases h2 : env.dbConnectOk = true
    · simp only [h1, h2, hb, if_true]
      have hkey := procMsgs_keyShaped env bucket env.messages 0
        { tr := { connected := true, lockAcquired := true, statusChecked := true,
                  dbConnectTried := true, fetchStarted := true },
          result := RunResult.failedInit, fault := none }
        (fun m hm => hm) (by intro e he; simp at he)
      cases hf : (procMsgs env bucket 0 env.messages
          { tr := { connected := true, lockAcquired := true, statusChecked := true,
                    dbConnectTried := true, fetchStarted := true },
            result := RunResult.failedInit, fault := none }).fault with
      | some f => simp only [hf]; exact hkey
      | none =>
        simp only [hf]
        by_cases he2 : (procMsgs env bucket 0 env.messages
            { tr := { connected := true, lockAcquired := true, statusChecked := true,
                      dbConnectTried := true, fetchStarted := true },
              result := RunResult.failedInit, fault := none }).tr.seen.isEmpty = true <;>
          simp only [he2, Bool.false_eq_true, if_true, if_false] <;> exact hkey
    · simp only [h1, h2, if_true, Bool.false_eq_true, if_false]
      intro e he
      simp at he
  · simp only [h1, if_false]
    intro e he
    simp at he

/-- Every S3 put of a whole handler run is shaped. -/
theorem handlerRun_keyShaped (env : Env) (bucket : String)
    (hb : env.emailBucket = some bucket) :
    ∀ e ∈ (handlerRun env).tr.s3Puts, keyShaped env bucket e := by
  unfold handlerRun
  cases hcb : env.connectOk with
  | false => intro e he; simp at he
  | true =>
    cases hlb : env.lockOk with
    | false => intro e he; simp at he
    | true =>
      simp only [Bool.not_true, Bool.false_eq_true, if_false]
      have hkey := tryBody_keyShaped env bucket hb
      cases hf : (tryBody env).fault with
      | some f => intro e he; exact hkey e he
      | none => intro e he; exact hkey e he

/-- C8: every blob write of a run goes to the configured bucket under a
key of the form `folder/<filename>` where the folder is derived from the
run's year, month and a fetched message's first recipient address; the
folder string is exactly `inbound/<year>/<month>/<local-part>` (the part
of the recipient address before the first at sign), and it is the same
in any two runs sharing year and month — independent of everything else
in the run. -/
theorem C8_folder_key_format_and_determinism :
    (∀ (env : Env) (bucket : String), env.emailBucket = some bucket →
      ∀ e ∈ (handlerRun env).tr.s3Puts, keyShaped env bucket e) ∧
    (∀ (y mo : Nat) (a : String), folderFor y mo a =
      "inbound/" ++ Nat.repr y ++ "/" ++ Nat.repr mo ++ "/" ++
        (⟨a.data.takeWhile (fun c => c ≠ '@')⟩ : String)) ∧
    (∀ (env1 env2 : Env) (a : String), env1.year = env2.year →
      env1.month = env2.month →
      folderFor env1.year env1.month a = folderFor env2.year env2.month a) := by
  refine ⟨handlerRun_keyShaped, fun y mo a => rfl, fun e1 e2 a h1 h2 => ?_⟩
  rw [h1, h2]

/-- C8 witness: the healthy run's `.eml` put instantiates the key-shape
and format facts; `inbound/2025/3/alice` is the derived folder. -/
theorem C8_witness :
    keyShaped envHappy "mail-bucket" ("mail-bucket", "inbound/2025/3/alice/id123.eml") ∧
    folderFor 2025 3 "alice@example.com" =
      "inbound/" ++ Nat.repr 2025 ++ "/" ++ Nat.repr 3 ++ "/" ++
        (⟨("alice@example.com").data.takeWhile (fun c => c ≠ '@')⟩ : String) :=
  ⟨C8_folder_key_format_and_determinism.1 envHappy "mail-bucket" rfl
     ("mail-bucket", "inbound/2025/3/alice/id123.eml")
     (by
       have hlist : (handlerRun envHappy).tr.s3Puts =
           [("mail-bucket", "inbound/2025/3/alice/id123.eml"),
            ("mail-bucket", "inbound/2025/3/alice/10000.pdf")] := by decide
       rw [hlist]
       exact List.mem_cons_self _ _),
   C8_folder_key_format_and_determinism.2.1 2025 3 "alice@example.com"⟩
